import Mathlib

/-!
# Verification of the `nengo_viz` visualization core (`nengo_viz/viz.py`)

This file embeds the two classes of `viz.py` — `Viz` (the Organizer) and
`VizSim` (a Session) — and proves/refutes the specification claims about
them.

The development has two layers:

* a **pure layer** modelling the sequential data operations: the Template
  (`Viz.template`, a list of `(cls, args, kwargs)` specs), the Registry
  (`Viz.components`, the Python dict keyed by object identity `id(c)`),
  the configuration calls (`Viz.slider`, `Viz.value`), the Registry
  operations (`Viz.add`, `Viz.pop_component`), and the component
  instantiation loop at the top of `VizSim.__init__`;

* a **concurrency layer** (`namespace Conc`): a labelled small-step
  transition system over the interleaving of session threads, the build
  lock, and the external `finish()` calls, following the statement order
  of `VizSim.__init__` and `VizSim.runner` line by line.

Python object identity (`id(component)`) is modelled by an allocation
counter `nextIdent`: every component instance receives a fresh
identity number at construction, matching CPython identity for live
objects.  Python functions that end without `return` yield `None`; such
functions are embedded with result type `Option Nat` (always `none`)
alongside the updated state, so that what the caller receives is part of
the model.  A `KeyError` (dict lookup miss) is embedded as `none` in an
`Option` result.
-/

/-- The component classes that `viz.py` ever puts into the template:
`nengo_viz.components.SimControl` (inserted by `Viz.__init__`),
`nengo_viz.components.Slider` (by `Viz.slider`) and
`nengo_viz.components.Value` (by `Viz.value`).  Their internals live
outside `viz.py`; only their tag matters here. -/
inductive CompKind where
  | simControl
  | slider
  | value
deriving DecidableEq, Repr

/-- One Template entry, as stored by `viz.py`: the tuple
`(cls, args, kwargs)` appended by `Viz.__init__` / `Viz.slider` /
`Viz.value`.  Positional and keyword arguments are opaque payloads. -/
structure ComponentSpec where
  cls : CompKind
  args : List Nat
  kwargs : List (String × Nat)
deriving DecidableEq, Repr

/-- A component instance, as produced by `cls(self, *args, **kwargs)` in
`VizSim.__init__`.  `ident` is its Python object identity `id(c)`. -/
structure Component where
  ident : Nat
  cls : CompKind
  args : List Nat
  kwargs : List (String × Nat)
deriving DecidableEq, Repr

/-- Registry lookup: `self.components[id]` on the dict.  The dict is
modelled as an association list with unique keys (insertion removes any
stale entry for the key, exactly the Python dict overwrite semantics). -/
def lookupReg : List (Nat × Component) → Nat → Option Component
  | [], _ => none
  | (k, c) :: rest, i => if k = i then some c else lookupReg rest i

/-- Remove the entry for key `i`: the effect of `del self.components[id]`
(a dict holds at most one entry per key, so dropping every pair with key
`i` is exactly the dict deletion). -/
def eraseReg : List (Nat × Component) → Nat → List (Nat × Component)
  | [], _ => []
  | kc :: rest, i => if kc.1 = i then eraseReg rest i else kc :: eraseReg rest i

/-- Dict assignment `self.components[k] = c`. -/
def insertReg (r : List (Nat × Component)) (k : Nat) (c : Component) :
    List (Nat × Component) :=
  (k, c) :: eraseReg r k

/-- The state of a `Viz` organizer (class `Viz` in `viz.py`): the
Template `self.template`, the Registry dict `self.components`, and the
identity-allocation counter modelling CPython `id()` for the component
objects this organizer creates.  (`self.model`, `self.dt` and
`self.Simulator` are opaque to every claim and carried implicitly.) -/
structure Viz where
  template : List ComponentSpec
  components : List (Nat × Component)
  nextIdent : Nat
deriving DecidableEq, Repr

/-- Embeds `Viz.__init__`: `self.template = []` followed by
`self.template.append((SimControl, [], {}))`, and `self.components = {}`. -/
def Viz.init : Viz :=
  { template := [⟨CompKind.simControl, [], []⟩], components := [], nextIdent := 0 }

/-- Embeds `Viz.slider(*args, **kwargs)`: appends `(Slider, args, kwargs)` to the
template.  The function body has no `return`, so Python returns `None`
(the `Option Nat` component, always `none`). -/
def Viz.slider (v : Viz) (args : List Nat) (kwargs : List (String × Nat)) :
    Viz × Option Nat :=
  ({ v with template := v.template ++ [⟨CompKind.slider, args, kwargs⟩] }, none)

/-- Embeds `Viz.value(*args, **kwargs)`: appends `(Value, args, kwargs)` to the
template; returns `None`. -/
def Viz.value (v : Viz) (args : List Nat) (kwargs : List (String × Nat)) :
    Viz × Option Nat :=
  ({ v with template := v.template ++ [⟨CompKind.value, args, kwargs⟩] }, none)

/-- Embeds `Viz.add(component)`: `self.components[id(component)] = component`.
No `return` statement, so the caller receives `None` — in particular the
allocated key is *not* returned. -/
def Viz.add (v : Viz) (c : Component) : Viz × Option Nat :=
  ({ v with components := insertReg v.components c.ident c }, none)

/-- Embeds `Viz.pop_component(id)`:
`c = self.components[id]; del self.components[id]; return c`.
A missing key raises `KeyError` (embedded as `none`). -/
def Viz.pop_component (v : Viz) (i : Nat) : Option (Component × Viz) :=
  match lookupReg v.components i with
  | none => none
  | some c => some (c, { v with components := eraseReg v.components i })

/-- Instantiate one template entry: `c = cls(self, *args, **kwargs)`.
Construction allocates a fresh object, so a fresh identity. -/
def instComp (sp : ComponentSpec) (ident : Nat) : Component :=
  ⟨ident, sp.cls, sp.args, sp.kwargs⟩

/-- The component loop at the top of `VizSim.__init__`:
`for cls, args, kwargs in self.viz.template:
   c = cls(self, *args, **kwargs); self.viz.add(c); self.components.append(c)`.
Returns the session's `self.components` list and the updated organizer. -/
def instLoop : List ComponentSpec → Viz → List Component → List Component × Viz
  | [], v, acc => (acc, v)
  | sp :: rest, v, acc =>
      let c := instComp sp v.nextIdent
      let v' := (Viz.add { v with nextIdent := v.nextIdent + 1 } c).1
      instLoop rest v' (acc ++ [c])

/-- The pure state of one `VizSim` session: the owned component list
(`self.components`), the `building` and `finished` flags. -/
structure VizSimP where
  components : List Component
  building : Bool
  finished : Bool
deriving DecidableEq, Repr

/-- An organizer together with the sessions created so far (the sessions
are values `Viz.create_sim` has returned to its callers). -/
structure VizSys where
  viz : Viz
  sims : List VizSimP
deriving DecidableEq, Repr

/-- Embeds `Viz.create_sim()` = `VizSim(self)`, pure part: runs the component
loop of `VizSim.__init__` over the current template (instantiating each
entry and registering it via `self.viz.add` before the constructor
returns) and hands the caller the new session. -/
def VizSys.create_sim (s : VizSys) : VizSys :=
  let (cs, v') := instLoop s.viz.template s.viz []
  { viz := v', sims := s.sims ++ [⟨cs, true, false⟩] }

/-- The call `Viz.slider` lifted to the system: the template append touches only
the organizer. -/
def VizSys.slider (s : VizSys) (args : List Nat) (kwargs : List (String × Nat)) :
    VizSys × Option Nat :=
  let (v', r) := s.viz.slider args kwargs
  ({ viz := v', sims := s.sims }, r)

/-- The components `instLoop` produces for template `t` when the
allocation counter starts at `start`: one instance per entry, in
template order, with consecutive fresh identities. -/
def mkComps : List ComponentSpec → Nat → List Component
  | [], _ => []
  | sp :: t, start => instComp sp start :: mkComps t (start + 1)

/-- Register a list of components one after the other (the cumulative
effect of the `self.viz.add(c)` calls of the component loop). -/
def regAddAll (r : List (Nat × Component)) (cs : List Component) :
    List (Nat × Component) :=
  cs.foldl (fun r c => insertReg r c.ident c) r

theorem lookupReg_insertReg_self (r : List (Nat × Component)) (k : Nat)
    (c : Component) : lookupReg (insertReg r k c) k = some c := by
  simp [insertReg, lookupReg]

theorem lookupReg_eraseReg_ne (r : List (Nat × Component)) (k i : Nat)
    (h : i ≠ k) :
    lookupReg (eraseReg r k) i = lookupReg r i := by
  induction r with
  | nil => rfl
  | cons kc rest ih =>
      by_cases hk : kc.1 = k
      · rw [eraseReg, if_pos hk, ih, lookupReg, if_neg (by omega)]
      · rw [eraseReg, if_neg hk]
        by_cases hi : kc.1 = i
        · simp [lookupReg, hi]
        · simp only [lookupReg, if_neg hi]
          exact ih

theorem lookupReg_insertReg_ne (r : List (Nat × Component)) (k i : Nat)
    (c : Component) (h : i ≠ k) :
    lookupReg (insertReg r k c) i = lookupReg r i := by
  simp only [insertReg, lookupReg]
  rw [if_neg (by omega)]
  exact lookupReg_eraseReg_ne r k i h

theorem lookupReg_eraseReg_self (r : List (Nat × Component)) (i : Nat) :
    lookupReg (eraseReg r i) i = none := by
  induction r with
  | nil => rfl
  | cons kc rest ih =>
      by_cases hk : kc.1 = i
      · rw [eraseReg, if_pos hk]
        exact ih
      · rw [eraseReg, if_neg hk, lookupReg, if_neg hk]
        exact ih

theorem lookupReg_regAddAll_not_mem (cs : List Component)
    (r : List (Nat × Component)) (i : Nat)
    (h : i ∉ cs.map Component.ident) :
    lookupReg (regAddAll r cs) i = lookupReg r i := by
  induction cs generalizing r with
  | nil => rfl
  | cons c rest ih =>
      simp only [List.map_cons, List.mem_cons, not_or] at h
      rw [regAddAll, List.foldl_cons]
      rw [show List.foldl (fun r c => insertReg r c.ident c)
            (insertReg r c.ident c) rest = regAddAll (insertReg r c.ident c) rest from rfl]
      rw [ih (insertReg r c.ident c) h.2]
      exact lookupReg_insertReg_ne r c.ident i c h.1

theorem lookupReg_regAddAll_mem (cs : List Component)
    (r : List (Nat × Component)) (c : Component)
    (hmem : c ∈ cs) (hnd : (cs.map Component.ident).Nodup) :
    lookupReg (regAddAll r cs) c.ident = some c := by
  induction cs generalizing r with
  | nil => cases hmem
  | cons c0 rest ih =>
      simp only [List.map_cons, List.nodup_cons] at hnd
      rcases List.mem_cons.1 hmem with hc | hc
      · subst hc
        rw [regAddAll, List.foldl_cons]
        rw [show List.foldl (fun r c => insertReg r c.ident c)
              (insertReg r c.ident c) rest = regAddAll (insertReg r c.ident c) rest from rfl]
        rw [lookupReg_regAddAll_not_mem rest _ c.ident hnd.1]
        exact lookupReg_insertReg_self r c.ident c
      · rw [regAddAll, List.foldl_cons]
        rw [show List.foldl (fun r c => insertReg r c.ident c)
              (insertReg r c0.ident c0) rest = regAddAll (insertReg r c0.ident c0) rest from rfl]
        exact ih (insertReg r c0.ident c0) hc hnd.2

theorem mkComps_length (t : List ComponentSpec) (start : Nat) :
    (mkComps t start).length = t.length := by
  induction t generalizing start with
  | nil => rfl
  | cons sp rest ih => simp [mkComps, ih]

theorem mkComps_map_ident (t : List ComponentSpec) (start : Nat) :
    (mkComps t start).map Component.ident = List.range' start t.length := by
  induction t generalizing start with
  | nil => rfl
  | cons sp rest ih => simp [mkComps, List.range', instComp, ih]

theorem mkComps_getElem (t : List ComponentSpec) (start k : Nat)
    (hk : k < t.length) (hk' : k < (mkComps t start).length) :
    (mkComps t start)[k] = instComp t[k] (start + k) := by
  induction t generalizing start k with
  | nil => exact absurd hk (by simp)
  | cons sp rest ih =>
      cases k with
      | zero => simp [mkComps]
      | succ k =>
          have hk2 : k < rest.length := by simpa using hk
          simp only [mkComps, List.getElem_cons_succ]
          rw [ih (start + 1) k hk2 (by simpa [mkComps_length] using hk2)]
          congr 1
          omega

/-- The loop `instLoop` characterized: it appends one component per template
entry in template order with consecutive fresh identities, registers
each of them, and bumps the identity counter by the template length. -/
theorem instLoop_eq (t : List ComponentSpec) (v : Viz) (acc : List Component) :
    instLoop t v acc =
      (acc ++ mkComps t v.nextIdent,
       { template := v.template,
         components := regAddAll v.components (mkComps t v.nextIdent),
         nextIdent := v.nextIdent + t.length }) := by
  induction t generalizing v acc with
  | nil => simp [instLoop, mkComps, regAddAll]
  | cons sp rest ih =>
      rw [instLoop, ih]
      simp only [Viz.add, mkComps, Prod.mk.injEq, Viz.mk.injEq, List.length_cons]
      exact ⟨by simp, trivial, rfl, by omega⟩

/-! ## Claims about the sequential data operations -/

/-- Claim C1: a `create_sim` call on an organizer whose template holds `N`
entries appends exactly one new session owning `N` component instances,
one per template entry and in template order (same class, positional and
keyword arguments), and each instance is registered in the registry when
`create_sim` returns.  Sessions created earlier are handed back
unchanged, and since the statement is universal in the pre-state, later
`create_sim` calls leave this session's entry untouched as well. -/
theorem create_sim_template_fidelity (s : VizSys) :
    (s.create_sim).sims.length = s.sims.length + 1 ∧
    (∀ i, i < s.sims.length → (s.create_sim).sims[i]? = s.sims[i]?) ∧
    ∀ sim, (s.create_sim).sims[s.sims.length]? = some sim →
      sim.components.length = s.viz.template.length ∧
      ∀ k (hk : k < s.viz.template.length) (hk2 : k < sim.components.length),
        sim.components[k].cls = s.viz.template[k].cls ∧
        sim.components[k].args = s.viz.template[k].args ∧
        sim.components[k].kwargs = s.viz.template[k].kwargs ∧
        lookupReg (s.create_sim).viz.components sim.components[k].ident =
          some sim.components[k] := by
  have hcs : s.create_sim =
      { viz := { template := s.viz.template,
                 components := regAddAll s.viz.components
                   (mkComps s.viz.template s.viz.nextIdent),
                 nextIdent := s.viz.nextIdent + s.viz.template.length },
        sims := s.sims ++ [⟨mkComps s.viz.template s.viz.nextIdent, true, false⟩] } := by
    rw [VizSys.create_sim, instLoop_eq]
    simp
  rw [hcs]
  refine ⟨by simp, fun i hi => by rw [List.getElem?_append, if_pos hi],
    fun sim hsim => ?_⟩
  rw [List.getElem?_concat_length] at hsim
  have hsim2 := Option.some.inj hsim
  subst hsim2
  refine ⟨mkComps_length _ _, fun k hk hk2 => ?_⟩
  rw [mkComps_getElem s.viz.template s.viz.nextIdent k hk hk2]
  refine ⟨rfl, rfl, rfl, ?_⟩
  have hmem : instComp s.viz.template[k] (s.viz.nextIdent + k) ∈
      mkComps s.viz.template s.viz.nextIdent := by
    rw [← mkComps_getElem s.viz.template s.viz.nextIdent k hk hk2]
    exact List.getElem_mem hk2
  exact lookupReg_regAddAll_mem _ _ _ hmem
    (by rw [mkComps_map_ident]; exact List.nodup_range' _ _)

/-- Witness for C1 at a concrete input: on a fresh organizer (template =
`[SimControl]`) the single created session registers its one component
under identity `0`. -/
theorem create_sim_template_fidelity_witness :
    lookupReg ((VizSys.mk Viz.init []).create_sim).viz.components 0 =
      some ⟨0, CompKind.simControl, [], []⟩ ∧
    ((VizSys.mk Viz.init []).create_sim).sims.length = 1 := by
  have h := create_sim_template_fidelity ⟨Viz.init, []⟩
  have h3 := h.2.2 ⟨[⟨0, CompKind.simControl, [], []⟩], true, false⟩ (by decide)
  have h4 := (h3.2 0 (by decide) (by decide)).2.2.2
  exact ⟨by simpa using h4, by simpa using h.1⟩

/-- Claim C2: `pop_component` removes and returns the mapping when the id
is present (afterwards the id no longer resolves, so a second
`pop_component` of the same id fails), and fails — `KeyError`, embedded
as `none` — when the id is absent.  Hence at most one `pop_component`
call on a given id ever succeeds. -/
theorem pop_component_one_shot (v : Viz) (i : Nat) :
    (∀ c, lookupReg v.components i = some c →
       ∃ v', v.pop_component i = some (c, v') ∧
         lookupReg v'.components i = none ∧ v'.pop_component i = none) ∧
    (lookupReg v.components i = none → v.pop_component i = none) := by
  constructor
  · intro c hc
    refine ⟨{ v with components := eraseReg v.components i }, ?_, ?_, ?_⟩
    · rw [Viz.pop_component, hc]
    · exact lookupReg_eraseReg_self v.components i
    · rw [Viz.pop_component]
      rw [show lookupReg ({ v with components := eraseReg v.components i } :
          Viz).components i = none from lookupReg_eraseReg_self v.components i]
  · intro h
    rw [Viz.pop_component, h]

/-- Witness for C2 at a concrete input: a registry holding id `5` yields
a successful first pop, and popping from an organizer without the id
fails. -/
theorem pop_component_one_shot_witness :
    (Viz.mk [] [(5, ⟨5, CompKind.value, [], []⟩)] 6).pop_component 5 ≠ none ∧
    (Viz.mk [] [] 6).pop_component 5 = none := by
  have h := (pop_component_one_shot (Viz.mk [] [(5, ⟨5, CompKind.value, [], []⟩)] 6) 5).1
    ⟨5, CompKind.value, [], []⟩ (by decide)
  obtain ⟨v', h1, h2, h3⟩ := h
  exact ⟨by simp [h1], (pop_component_one_shot (Viz.mk [] [] 6) 5).2 (by decide)⟩

/-- Claim C3, counterexample: the claim says `register` returns the
allocated id to the caller.  `Viz.add` in `viz.py` has no `return`
statement: the caller receives `None`, not the id (here the component's
identity `0`). -/
theorem add_does_not_return_id_cex :
    (Viz.add Viz.init ⟨0, CompKind.slider, [], []⟩).2 = none ∧
    ¬ (Viz.add Viz.init ⟨0, CompKind.slider, [], []⟩).2 =
        some (Component.ident ⟨0, CompKind.slider, [], []⟩) := by
  decide

/-- Claim C3, amended: `add` stores the id→component mapping under the
component's identity-based id, and that identity is fresh — the
instantiation loop allocates pairwise-distinct identities, all at least
the current counter value, and `create_sim` advances the counter past
them — but `add` returns `None` to the caller, not the id. -/
theorem register_stores_mapping_fresh_ident :
    (∀ (v : Viz) (c : Component),
       lookupReg (Viz.add v c).1.components c.ident = some c ∧
       (Viz.add v c).2 = none) ∧
    (∀ (t : List ComponentSpec) (start : Nat),
       ((mkComps t start).map Component.ident).Nodup ∧
       ∀ x ∈ (mkComps t start).map Component.ident, start ≤ x) ∧
    (∀ s : VizSys,
       (s.create_sim).viz.nextIdent = s.viz.nextIdent + s.viz.template.length) := by
  refine ⟨fun v c => ⟨lookupReg_insertReg_self _ _ _, rfl⟩,
    fun t start => ⟨?_, ?_⟩, fun s => ?_⟩
  · rw [mkComps_map_ident]
    exact List.nodup_range' _ _
  · intro x hx
    rw [mkComps_map_ident] at hx
    exact (List.mem_range'_1.1 hx).1
  · rw [VizSys.create_sim, instLoop_eq]

/-- Witness for the amended C3 at a concrete input. -/
theorem register_stores_mapping_fresh_ident_witness :
    lookupReg (Viz.add Viz.init ⟨3, CompKind.value, [], []⟩).1.components 3 =
      some ⟨3, CompKind.value, [], []⟩ ∧ 2 ≤ 2 := by
  refine ⟨?_, ?_⟩
  · have h := (register_stores_mapping_fresh_ident.1 Viz.init
      ⟨3, CompKind.value, [], []⟩).1
    simpa using h
  · exact (register_stores_mapping_fresh_ident.2.1 [⟨CompKind.slider, [], []⟩] 2).2
      2 (by decide)

/-- Claim C8: a configuration call appends exactly one spec to the
template and returns `None`; the registry and every already-created
session are left unchanged — a session's owned component list is part of
the session value fixed at creation time, and a later template append
does not touch it.  (`Viz.value` behaves the same way at the organizer
level.) -/
theorem slider_appends_one_spec (s : VizSys) (args : List Nat)
    (kwargs : List (String × Nat)) :
    (s.slider args kwargs).1.viz.template =
      s.viz.template ++ [⟨CompKind.slider, args, kwargs⟩] ∧
    (s.slider args kwargs).2 = none ∧
    (s.slider args kwargs).1.sims = s.sims ∧
    (s.slider args kwargs).1.viz.components = s.viz.components ∧
    (s.viz.value args kwargs).1.template =
      s.viz.template ++ [⟨CompKind.value, args, kwargs⟩] ∧
    (s.viz.value args kwargs).2 = none := by
  exact ⟨rfl, rfl, rfl, rfl, rfl, rfl⟩

/-! ## Concurrency layer

A labelled small-step transition system over the interleaving of the
threads of one organizer.  Each session advances through the control
locations of `VizSim.__init__` (executed on the thread that called
`Viz.create_sim`) followed by `VizSim.runner` (executed on the thread
started by `thread.start_new_thread(self.runner, ())`).  The build lock
`self.viz.lock` is a `threading.Lock`: `acquire()` succeeds only when no
thread holds it, `release()` frees it.  `finish()` may be called by any
other thread at any moment.  A `Simulator` call that raises kills the
runner thread at that statement (Python prints the traceback and the
thread terminates — no `finally` block exists in `runner`).
-/

namespace Conc

/-- Control locations of one session, in the statement order of
`VizSim.__init__` and `VizSim.runner`. -/
inductive Phase where
  /-- In `__init__`, blocked at `self.viz.lock.acquire()`. -/
  | acquire
  /-- In `__init__`, the component loop with `k` template entries already
  instantiated and registered. -/
  | inst (k : Nat)
  /-- In `__init__`, at `thread.start_new_thread(self.runner, ())`;
  executing this statement makes the constructor return. -/
  | spawn
  /-- In `runner`, at `self.sim = self.viz.Simulator(self.model, dt=self.dt)`. -/
  | build
  /-- In `runner`, the removal loop with `k` components already stripped via
  `c.remove_nengo_objects(self.viz)`. -/
  | strip (k : Nat)
  /-- In `runner`, at `self.viz.lock.release()`. -/
  | release
  /-- In `runner`, at `self.building = False`. -/
  | setRun
  /-- In `runner`, at the `while not self.finished` test. -/
  | loopCheck
  /-- The run loop exited. -/
  | done
  /-- The `Simulator` factory raised: the runner thread is dead. -/
  | crashed
deriving DecidableEq, Repr

/-- One session's thread-visible state. -/
structure Sess where
  /-- Current control location. -/
  phase : Phase
  /-- Number of template entries at creation time -/
  n : Nat
  /-- Components instantiated and registered so far. -/
  registered : Nat
  /-- Components whose model mutation has been undone so far. -/
  undone : Nat
  /-- Count of `sim.run` quanta executed so far. -/
  steps : Nat
  /-- The flag `self.finished`. -/
  finished : Bool
  /-- Whether the `VizSim(...)` constructor has returned to its caller -/
  returned : Bool
  /-- Whether the `Simulator` factory will raise for this session. -/
  fails : Bool
  /-- The flag `self.building`. -/
  building : Bool
deriving DecidableEq, Repr

/-- The state `VizSim.__init__` establishes before touching the lock. -/
def newSess (n : Nat) (fails : Bool) : Sess :=
  ⟨Phase.acquire, n, 0, 0, 0, false, false, fails, true⟩

/-- Global state: template length, the build lock (`none` = free), and
the sessions created so far, indexed by creation order. -/
structure Sys where
  tmplLen : Nat
  lockHolder : Option Nat
  sess : List Sess
deriving DecidableEq, Repr

/-- Transition labels: which thread moves. -/
inductive Label where
  /-- A caller invokes `viz.create_sim()`; `fails` records whether the
  `Simulator` factory will raise for this session -/
  | create (fails : Bool)
  /-- The thread currently executing session `i`'s next statement moves -/
  | act (i : Nat)
  /-- Some other thread calls `finish()` on session `i` -/
  | tellFinish (i : Nat)
  /-- A caller invokes a configuration call (`viz.slider`/`viz.value`) -/
  | configure
deriving DecidableEq, Repr

/-- The interleaving semantics of `viz.py`, one constructor per
statement-level transition. -/
inductive Step : Sys → Label → Sys → Prop where
  /-- Call of `viz.create_sim()`: allocates the session object; its constructor
  is about to execute `self.viz.lock.acquire()`. -/
  | create (s : Sys) (b : Bool) :
      Step s (Label.create b) { s with sess := s.sess ++ [newSess s.tmplLen b] }
  /-- Call of `viz.slider(...)`/`viz.value(...)`: the template grows by one. -/
  | configure (s : Sys) :
      Step s Label.configure { s with tmplLen := s.tmplLen + 1 }
  /-- Call of `finish()`: sets `self.finished = True`, from any thread, at any
  time, whatever the session is doing. -/
  | tellFinish (s : Sys) (i : Nat) (σ : Sess) (h : s.sess[i]? = some σ) :
      Step s (Label.tellFinish i)
        { s with sess := s.sess.set i { σ with finished := true } }
  /-- Statement `self.viz.lock.acquire()` returns: only possible when no thread
  holds the lock; the caller's thread then enters the component loop. -/
  | actAcquire (s : Sys) (i : Nat) (σ : Sess) (h : s.sess[i]? = some σ)
      (hp : σ.phase = Phase.acquire) (hl : s.lockHolder = none) :
      Step s (Label.act i)
        { s with lockHolder := some i,
                 sess := s.sess.set i { σ with phase := Phase.inst 0 } }
  /-- One iteration of the component loop: `c = cls(self, *args,
  **kwargs); self.viz.add(c); self.components.append(c)`. -/
  | actInst (s : Sys) (i : Nat) (σ : Sess) (h : s.sess[i]? = some σ)
      (k : Nat) (hp : σ.phase = Phase.inst k) (hk : k < σ.n) :
      Step s (Label.act i)
        { s with sess := s.sess.set i ({ σ with phase := Phase.inst (k + 1), registered := k + 1 }) }
  /-- The component loop is exhausted. -/
  | actInstDone (s : Sys) (i : Nat) (σ : Sess) (h : s.sess[i]? = some σ)
      (k : Nat) (hp : σ.phase = Phase.inst k) (hk : k = σ.n) :
      Step s (Label.act i)
        { s with sess := s.sess.set i { σ with phase := Phase.spawn } }
  /-- Statement `thread.start_new_thread(self.runner, ())`: the runner thread is
  born at the top of `runner` and the constructor returns. -/
  | actSpawn (s : Sys) (i : Nat) (σ : Sess) (h : s.sess[i]? = some σ)
      (hp : σ.phase = Phase.spawn) :
      Step s (Label.act i)
        { s with sess := s.sess.set i ({ σ with phase := Phase.build, returned := true }) }
  /-- Statement `self.sim = self.viz.Simulator(...)` succeeds. -/
  | actBuildOk (s : Sys) (i : Nat) (σ : Sess) (h : s.sess[i]? = some σ)
      (hp : σ.phase = Phase.build) (hf : σ.fails = false) :
      Step s (Label.act i)
        { s with sess := s.sess.set i { σ with phase := Phase.strip 0 } }
  /-- Statement `self.sim = self.viz.Simulator(...)` raises: the runner thread
  dies at this statement; no other statement of `runner` executes. -/
  | actBuildFail (s : Sys) (i : Nat) (σ : Sess) (h : s.sess[i]? = some σ)
      (hp : σ.phase = Phase.build) (hf : σ.fails = true) :
      Step s (Label.act i)
        { s with sess := s.sess.set i { σ with phase := Phase.crashed } }
  /-- One iteration of the removal loop:
  `c.remove_nengo_objects(self.viz)`. -/
  | actStrip (s : Sys) (i : Nat) (σ : Sess) (h : s.sess[i]? = some σ)
      (k : Nat) (hp : σ.phase = Phase.strip k) (hk : k < σ.n) :
      Step s (Label.act i)
        { s with sess := s.sess.set i ({ σ with phase := Phase.strip (k + 1), undone := k + 1 }) }
  /-- The removal loop is exhausted. -/
  | actStripDone (s : Sys) (i : Nat) (σ : Sess) (h : s.sess[i]? = some σ)
      (k : Nat) (hp : σ.phase = Phase.strip k) (hk : k = σ.n) :
      Step s (Label.act i)
        { s with sess := s.sess.set i { σ with phase := Phase.release } }
  /-- Statement `self.viz.lock.release()`. -/
  | actRelease (s : Sys) (i : Nat) (σ : Sess) (h : s.sess[i]? = some σ)
      (hp : σ.phase = Phase.release) :
      Step s (Label.act i)
        { s with lockHolder := none,
                 sess := s.sess.set i { σ with phase := Phase.setRun } }
  /-- Statement `self.building = False`. -/
  | actSetRun (s : Sys) (i : Nat) (σ : Sess) (h : s.sess[i]? = some σ)
      (hp : σ.phase = Phase.setRun) :
      Step s (Label.act i)
        { s with sess := s.sess.set i ({ σ with phase := Phase.loopCheck, building := false }) }
  /-- Test `while not self.finished` with the flag unset: run one quantum,
  `self.sim.run(0.1, progress_bar=False)`, and come back to the test. -/
  | actLoopRun (s : Sys) (i : Nat) (σ : Sess) (h : s.sess[i]? = some σ)
      (hp : σ.phase = Phase.loopCheck) (hf : σ.finished = false) :
      Step s (Label.act i)
        { s with sess := s.sess.set i { σ with steps := σ.steps + 1 } }
  /-- Test `while not self.finished` with the flag set: the loop, and with it
  the runner thread, exits. -/
  | actLoopExit (s : Sys) (i : Nat) (σ : Sess) (h : s.sess[i]? = some σ)
      (hp : σ.phase = Phase.loopCheck) (hf : σ.finished = true) :
      Step s (Label.act i)
        { s with sess := s.sess.set i { σ with phase := Phase.done } }

/-- The organizer right after `Viz.__init__`: a one-entry template
(`SimControl`), a free `threading.Lock`, no sessions yet. -/
def init : Sys := ⟨1, none, []⟩

/-- The states this organizer can reach. -/
inductive Reach : Sys → Prop where
  | init : Reach init
  | step {s : Sys} {l : Label} {s' : Sys} : Reach s → Step s l s' → Reach s'

/-- The phases during which the session's thread holds the build lock:
from the return of `lock.acquire()` to the execution of
`lock.release()` — and forever, if the runner thread died at the
`Simulator` call, since no `finally` clause releases the lock. -/
def holdsLock : Phase → Bool
  | Phase.inst _ => true
  | Phase.spawn => true
  | Phase.build => true
  | Phase.strip _ => true
  | Phase.release => true
  | Phase.crashed => true
  | _ => false

/-- Per-session structural invariant, by control location. -/
def SessOk (σ : Sess) : Prop :=
  match σ.phase with
  | Phase.acquire =>
      σ.registered = 0 ∧ σ.undone = 0 ∧ σ.steps = 0 ∧ σ.returned = false ∧
      σ.building = true
  | Phase.inst k =>
      k ≤ σ.n ∧ σ.registered = k ∧ σ.undone = 0 ∧ σ.steps = 0 ∧
      σ.returned = false ∧ σ.building = true
  | Phase.spawn =>
      σ.registered = σ.n ∧ σ.undone = 0 ∧ σ.steps = 0 ∧ σ.returned = false ∧
      σ.building = true
  | Phase.build =>
      σ.registered = σ.n ∧ σ.undone = 0 ∧ σ.steps = 0 ∧ σ.returned = true ∧
      σ.building = true
  | Phase.strip k =>
      k ≤ σ.n ∧ σ.registered = σ.n ∧ σ.undone = k ∧ σ.steps = 0 ∧
      σ.returned = true ∧ σ.building = true ∧ σ.fails = false
  | Phase.release =>
      σ.registered = σ.n ∧ σ.undone = σ.n ∧ σ.steps = 0 ∧ σ.returned = true ∧
      σ.building = true ∧ σ.fails = false
  | Phase.setRun =>
      σ.registered = σ.n ∧ σ.undone = σ.n ∧ σ.steps = 0 ∧ σ.returned = true ∧
      σ.building = true ∧ σ.fails = false
  | Phase.loopCheck =>
      σ.registered = σ.n ∧ σ.undone = σ.n ∧ σ.returned = true ∧
      σ.building = false ∧ σ.fails = false
  | Phase.done =>
      σ.registered = σ.n ∧ σ.undone = σ.n ∧ σ.returned = true ∧
      σ.building = false ∧ σ.fails = false
  | Phase.crashed =>
      σ.registered = σ.n ∧ σ.undone = 0 ∧ σ.steps = 0 ∧ σ.returned = true ∧
      σ.building = true ∧ σ.fails = true

/-- Global invariant: the lock holder is a real session, a session's
thread is inside the lock-protected region exactly when it is the
holder, and every session satisfies its per-location invariant. -/
def Inv (s : Sys) : Prop :=
  (∀ i, s.lockHolder = some i → i < s.sess.length) ∧
  (∀ i σ, s.sess[i]? = some σ →
     (holdsLock σ.phase = true ↔ s.lockHolder = some i) ∧ SessOk σ)

end Conc

namespace Conc

theorem init_inv : Inv init := by
  refine ⟨fun i h => by simp [init] at h, fun i σ h => by simp [init] at h⟩

/-- Updating one session preserves the invariant, provided the new
session record is well formed, the new lock value agrees with the new
record's region, and the lock is untouched as far as the other sessions
are concerned. -/
theorem inv_set (s : Sys) (i : Nat) (σ σ' : Sess) (L : Option Nat)
    (h : s.sess[i]? = some σ)
    (_hrange : ∀ j, s.lockHolder = some j → j < s.sess.length)
    (hall : ∀ j σj, s.sess[j]? = some σj →
       (holdsLock σj.phase = true ↔ s.lockHolder = some j) ∧ SessOk σj)
    (hok : SessOk σ')
    (hlock : holdsLock σ'.phase = true ↔ L = some i)
    (hother : ∀ j, j ≠ i → (s.lockHolder = some j ↔ L = some j))
    (hrange2 : ∀ j, L = some j → j < s.sess.length) :
    Inv { s with lockHolder := L, sess := s.sess.set i σ' } := by
  constructor
  · intro j hj
    simpa [List.length_set] using hrange2 j hj
  · intro j σj hj
    by_cases hji : j = i
    · subst hji
      have hi : j < s.sess.length := (List.getElem?_eq_some.1 h).1
      simp only [] at hj
      rw [List.getElem?_set_eq_of_lt σ' hi] at hj
      cases Option.some.inj hj
      exact ⟨hlock, hok⟩
    · simp only [] at hj
      rw [List.getElem?_set_ne (Ne.symm hji)] at hj
      have h2 := hall j σj hj
      exact ⟨h2.1.trans (hother j hji), h2.2⟩

theorem step_inv {s : Sys} {l : Label} {s' : Sys} (hs : Inv s)
    (hst : Step s l s') : Inv s' := by
  obtain ⟨hrange, hall⟩ := hs
  cases hst with
  | create b =>
      refine ⟨fun j hj => ?_, fun j σj hj => ?_⟩
      · simp only [List.length_append, List.length_cons, List.length_nil]
        exact Nat.lt_succ_of_lt (hrange j hj)
      · by_cases hlt : j < s.sess.length
        · simp only [] at hj
          rw [List.getElem?_append, if_pos hlt] at hj
          exact hall j σj hj
        · simp only [] at hj
          rw [List.getElem?_append, if_neg hlt] at hj
          rcases Nat.lt_or_ge (j - s.sess.length) 1 with hj1 | hj1
          · have hje : j - s.sess.length = 0 := by omega
            rw [hje] at hj
            simp only [List.getElem?_cons_zero] at hj
            cases Option.some.inj hj
            refine ⟨?_, ?_⟩
            · simp only [newSess, holdsLock]
              constructor
              · intro hh
                cases hh
              · intro hh
                exact absurd (hrange j hh) hlt
            · simp [newSess, SessOk]
          · rw [List.getElem?_eq_none] at hj
            · cases hj
            · simp only [List.length_cons, List.length_nil]
              omega
  | configure =>
      exact ⟨hrange, hall⟩
  | tellFinish i σ h =>
      have h2 := hall i σ h
      refine inv_set s i σ _ s.lockHolder h hrange hall ?_ ?_
        (fun j _ => Iff.rfl) hrange
      · exact h2.2
      · exact h2.1
  | actAcquire i σ h hp hl =>
      have h2 := hall i σ h
      have hsk := h2.2
      simp only [SessOk, hp] at hsk
      have hi : i < s.sess.length := (List.getElem?_eq_some.1 h).1
      refine inv_set s i σ _ (some i) h hrange hall ?_ ?_ ?_ ?_
      · simp only [SessOk]
        exact ⟨Nat.zero_le _, hsk.1, hsk.2.1, hsk.2.2.1, hsk.2.2.2.1, hsk.2.2.2.2⟩
      · simp [holdsLock]
      · intro j hj
        rw [hl]
        simp only [Option.some.injEq]
        constructor
        · intro hh
          cases hh
        · intro hh
          exact absurd hh.symm hj
      · intro j hj
        cases Option.some.inj hj
        exact hi
  | actInst i σ h k hp hk =>
      have h2 := hall i σ h
      have hsk := h2.2
      simp only [SessOk, hp] at hsk
      have hli : s.lockHolder = some i := h2.1.1 (by rw [hp]; rfl)
      refine inv_set s i σ _ s.lockHolder h hrange hall ?_ ?_
        (fun j _ => Iff.rfl) hrange
      · exact ⟨Nat.succ_le_of_lt hk, rfl, hsk.2.2.1, hsk.2.2.2.1,
          hsk.2.2.2.2.1, hsk.2.2.2.2.2⟩
      · simp only [holdsLock, hli]
  | actInstDone i σ h k hp hk =>
      have h2 := hall i σ h
      have hsk := h2.2
      simp only [SessOk, hp] at hsk
      have hli : s.lockHolder = some i := h2.1.1 (by rw [hp]; rfl)
      refine inv_set s i σ _ s.lockHolder h hrange hall ?_ ?_
        (fun j _ => Iff.rfl) hrange
      · simp only [SessOk]
        refine ⟨?_, hsk.2.2.1, hsk.2.2.2.1, hsk.2.2.2.2.1, hsk.2.2.2.2.2⟩
        omega
      · simp only [holdsLock, hli]
  | actSpawn i σ h hp =>
      have h2 := hall i σ h
      have hsk := h2.2
      simp only [SessOk, hp] at hsk
      have hli : s.lockHolder = some i := h2.1.1 (by rw [hp]; rfl)
      refine inv_set s i σ _ s.lockHolder h hrange hall ?_ ?_
        (fun j _ => Iff.rfl) hrange
      · exact ⟨hsk.1, hsk.2.1, hsk.2.2.1, rfl, hsk.2.2.2.2⟩
      · simp only [holdsLock, hli]
  | actBuildOk i σ h hp hf =>
      have h2 := hall i σ h
      have hsk := h2.2
      simp only [SessOk, hp] at hsk
      have hli : s.lockHolder = some i := h2.1.1 (by rw [hp]; rfl)
      refine inv_set s i σ _ s.lockHolder h hrange hall ?_ ?_
        (fun j _ => Iff.rfl) hrange
      · simp only [SessOk]
        exact ⟨Nat.zero_le _, hsk.1, hsk.2.1, hsk.2.2.1, hsk.2.2.2.1, hsk.2.2.2.2, hf⟩
      · simp only [holdsLock, hli]
  | actBuildFail i σ h hp hf =>
      have h2 := hall i σ h
      have hsk := h2.2
      simp only [SessOk, hp] at hsk
      have hli : s.lockHolder = some i := h2.1.1 (by rw [hp]; rfl)
      refine inv_set s i σ _ s.lockHolder h hrange hall ?_ ?_
        (fun j _ => Iff.rfl) hrange
      · exact ⟨hsk.1, hsk.2.1, hsk.2.2.1, hsk.2.2.2.1, hsk.2.2.2.2, hf⟩
      · simp only [holdsLock, hli]
  | actStrip i σ h k hp hk =>
      have h2 := hall i σ h
      have hsk := h2.2
      simp only [SessOk, hp] at hsk
      have hli : s.lockHolder = some i := h2.1.1 (by rw [hp]; rfl)
      refine inv_set s i σ _ s.lockHolder h hrange hall ?_ ?_
        (fun j _ => Iff.rfl) hrange
      · exact ⟨Nat.succ_le_of_lt hk, hsk.2.1, rfl, hsk.2.2.2.1,
          hsk.2.2.2.2.1, hsk.2.2.2.2.2.1, hsk.2.2.2.2.2.2⟩
      · simp only [holdsLock, hli]
  | actStripDone i σ h k hp hk =>
      have h2 := hall i σ h
      have hsk := h2.2
      simp only [SessOk, hp] at hsk
      have hli : s.lockHolder = some i := h2.1.1 (by rw [hp]; rfl)
      refine inv_set s i σ _ s.lockHolder h hrange hall ?_ ?_
        (fun j _ => Iff.rfl) hrange
      · simp only [SessOk]
        refine ⟨hsk.2.1, ?_, hsk.2.2.2.1, hsk.2.2.2.2.1, hsk.2.2.2.2.2.1,
          hsk.2.2.2.2.2.2⟩
        omega
      · simp only [holdsLock, hli]
  | actRelease i σ h hp =>
      have h2 := hall i σ h
      have hsk := h2.2
      simp only [SessOk, hp] at hsk
      have hli : s.lockHolder = some i := h2.1.1 (by rw [hp]; rfl)
      refine inv_set s i σ _ none h hrange hall ?_ ?_ ?_ ?_
      · simp only [SessOk]
        exact hsk
      · simp [holdsLock]
      · intro j hj
        rw [hli]
        simp only [Option.some.injEq]
        constructor
        · intro hh
          exact absurd hh.symm hj
        · intro hh
          cases hh
      · intro j hj
        cases hj
  | actSetRun i σ h hp =>
      have h2 := hall i σ h
      have hsk := h2.2
      simp only [SessOk, hp] at hsk
      have hli : ¬ s.lockHolder = some i := fun hh => by
        have := h2.1.2 hh
        rw [hp] at this
        cases this
      refine inv_set s i σ _ s.lockHolder h hrange hall ?_ ?_
        (fun j _ => Iff.rfl) hrange
      · exact ⟨hsk.1, hsk.2.1, hsk.2.2.2.1, rfl, hsk.2.2.2.2.2⟩
      · simp only [holdsLock]
        constructor
        · intro hh
          cases hh
        · intro hh
          exact absurd hh hli
  | actLoopRun i σ h hp hf =>
      have h2 := hall i σ h
      have hsk := h2.2
      simp only [SessOk, hp] at hsk
      have hli : ¬ s.lockHolder = some i := fun hh => by
        have := h2.1.2 hh
        rw [hp] at this
        cases this
      refine inv_set s i σ _ s.lockHolder h hrange hall ?_ ?_
        (fun j _ => Iff.rfl) hrange
      · simp only [SessOk, hp]
        exact hsk
      · simp only [holdsLock, hp]
        constructor
        · intro hh
          cases hh
        · intro hh
          exact absurd hh hli
  | actLoopExit i σ h hp hf =>
      have h2 := hall i σ h
      have hsk := h2.2
      simp only [SessOk, hp] at hsk
      have hli : ¬ s.lockHolder = some i := fun hh => by
        have := h2.1.2 hh
        rw [hp] at this
        cases this
      refine inv_set s i σ _ s.lockHolder h hrange hall ?_ ?_
        (fun j _ => Iff.rfl) hrange
      · simp only [SessOk]
        exact hsk
      · simp only [holdsLock]
        constructor
        · intro hh
          cases hh
        · intro hh
          exact absurd hh hli

/-- Every reachable state satisfies the invariant. -/
theorem reach_inv {s : Sys} (h : Reach s) : Inv s := by
  induction h with
  | init => exact init_inv
  | step _ hst ih => exact step_inv ih hst

end Conc

namespace Conc

/-- Session `i`'s thread can make no progress in state `s`: its next
statement is not executable under the interleaving semantics. -/
def blocked (s : Sys) (i : Nat) : Prop :=
  ∀ s', ¬ Step s (Label.act i) s'

/-- A session parked at `lock.acquire()` cannot move while any thread
holds the lock. -/
theorem blocked_of_acquire_locked {s : Sys} {i : Nat} {σ : Sess}
    (h : s.sess[i]? = some σ) (hp : σ.phase = Phase.acquire)
    (hl : ¬ s.lockHolder = none) : blocked s i := by
  intro s' hst
  cases hst <;> simp_all

/-- A session whose runner thread died at the `Simulator` call never
moves again. -/
theorem blocked_of_crashed {s : Sys} {i : Nat} {σ : Sess}
    (h : s.sess[i]? = some σ) (hp : σ.phase = Phase.crashed) : blocked s i := by
  intro s' hst
  cases hst <;> simp_all

/-- Concrete execution: one session created on a fresh organizer and its
caller thread past `lock.acquire()`, inside the component loop. -/
theorem reach_locked :
    Reach ⟨1, some 0, [⟨Phase.inst 0, 1, 0, 0, 0, false, false, false, true⟩]⟩ := by
  have h0 := Reach.init
  have h1 := Reach.step h0 (Step.create init false)
  exact Reach.step h1 (Step.actAcquire _ 0 (newSess 1 false) rfl rfl rfl)

end Conc

/-- Claim C9: mutual exclusion of the build lock.  In every reachable
state, if the threads of sessions `i` and `j` are both inside the
lock-protected region (between the return of `lock.acquire()` and the
execution of `lock.release()` — the whole model-mutation phase:
component instantiation, simulation build, and instrumentation
stripping), then `i = j`: across the organizer's lifetime at most one
session holds the build lock at any instant, so the lock-holding
intervals of two distinct sessions never overlap. -/
theorem build_lock_mutual_exclusion {s : Conc.Sys} (hs : Conc.Reach s)
    {i j : Nat} {σi σj : Conc.Sess}
    (hi : s.sess[i]? = some σi) (hj : s.sess[j]? = some σj)
    (hholdi : Conc.holdsLock σi.phase = true)
    (hholdj : Conc.holdsLock σj.phase = true) : i = j := by
  have hv := Conc.reach_inv hs
  have h1 := (hv.2 i σi hi).1.1 hholdi
  have h2 := (hv.2 j σj hj).1.1 hholdj
  rw [h1] at h2
  exact Option.some.inj h2

/-- Witness for C9 at a concrete reachable state (one session inside
the protected region, compared with itself). -/
theorem build_lock_mutual_exclusion_witness : (0 : Nat) = 0 :=
  @build_lock_mutual_exclusion _ Conc.reach_locked 0 0
    ⟨Conc.Phase.inst 0, 1, 0, 0, 0, false, false, false, true⟩
    ⟨Conc.Phase.inst 0, 1, 0, 0, 0, false, false, false, true⟩
    rfl rfl rfl rfl

/-- Claim C6: in every reachable state, a session that has left the
building state (`building = False`) has undone the model mutation of
every one of its components, and a session that has executed at least
one simulation quantum has done so too (and is out of the building
state): all undos complete before the session transitions out of
building, and no `sim.run` step executes before all undos have
completed.  The third conjunct records the order: while the removal loop
is at component `k`, exactly the first `k` components — a prefix in
template order — have been undone. -/
theorem undo_before_run {s : Conc.Sys} (hs : Conc.Reach s)
    {i : Nat} {σ : Conc.Sess} (h : s.sess[i]? = some σ) :
    (σ.building = false → σ.undone = σ.n) ∧
    (0 < σ.steps → σ.undone = σ.n ∧ σ.building = false) ∧
    (∀ k, σ.phase = Conc.Phase.strip k → σ.undone = k ∧ k ≤ σ.n) := by
  have hsk := ((Conc.reach_inv hs).2 i σ h).2
  refine ⟨fun hb => ?_, fun hst => ?_, fun k hk => ?_⟩
  · cases hph : σ.phase <;> simp only [Conc.SessOk, hph] at hsk <;> simp_all
  · cases hph : σ.phase <;> simp only [Conc.SessOk, hph] at hsk <;> simp_all
  · simp only [Conc.SessOk, hk] at hsk
    exact ⟨hsk.2.2.1, hsk.1⟩

namespace Conc

/-- Concrete execution continued: the single session's constructor has
finished the component loop, spawned the runner thread, and the runner
has built the simulation. -/
theorem reach_built :
    Reach ⟨1, some 0, [⟨Phase.build, 1, 1, 0, 0, false, true, false, true⟩]⟩ := by
  have h1 : Reach ⟨1, some 0, [⟨Phase.inst 1, 1, 1, 0, 0, false, false, false, true⟩]⟩ :=
    Reach.step reach_locked
      (Step.actInst ⟨1, some 0, [⟨Phase.inst 0, 1, 0, 0, 0, false, false, false, true⟩]⟩
        0 ⟨Phase.inst 0, 1, 0, 0, 0, false, false, false, true⟩ rfl 0 rfl (by decide))
  have h2 : Reach ⟨1, some 0, [⟨Phase.spawn, 1, 1, 0, 0, false, false, false, true⟩]⟩ :=
    Reach.step h1
      (Step.actInstDone ⟨1, some 0, [⟨Phase.inst 1, 1, 1, 0, 0, false, false, false, true⟩]⟩
        0 ⟨Phase.inst 1, 1, 1, 0, 0, false, false, false, true⟩ rfl 1 rfl rfl)
  exact Reach.step h2
    (Step.actSpawn ⟨1, some 0, [⟨Phase.spawn, 1, 1, 0, 0, false, false, false, true⟩]⟩
      0 ⟨Phase.spawn, 1, 1, 0, 0, false, false, false, true⟩ rfl rfl)

/-- Concrete execution continued: the runner has stripped the single
component. -/
theorem reach_strip1 :
    Reach ⟨1, some 0, [⟨Phase.strip 1, 1, 1, 1, 0, false, true, false, true⟩]⟩ := by
  have h4 : Reach ⟨1, some 0, [⟨Phase.strip 0, 1, 1, 0, 0, false, true, false, true⟩]⟩ :=
    Reach.step reach_built
      (Step.actBuildOk ⟨1, some 0, [⟨Phase.build, 1, 1, 0, 0, false, true, false, true⟩]⟩
        0 ⟨Phase.build, 1, 1, 0, 0, false, true, false, true⟩ rfl rfl rfl)
  exact Reach.step h4
    (Step.actStrip ⟨1, some 0, [⟨Phase.strip 0, 1, 1, 0, 0, false, true, false, true⟩]⟩
      0 ⟨Phase.strip 0, 1, 1, 0, 0, false, true, false, true⟩ rfl 0 rfl (by decide))

end Conc

/-- Witness for C6 at a concrete reachable state: after the removal
loop of the one-component session has run, that component's mutation is
undone (`undone = 1 = n`). -/
theorem undo_before_run_witness :
    (⟨Conc.Phase.strip 1, 1, 1, 1, 0, false, true, false, true⟩ : Conc.Sess).undone = 1 ∧
    (1 : Nat) ≤ 1 :=
  (undo_before_run Conc.reach_strip1
    (i := 0) (σ := ⟨Conc.Phase.strip 1, 1, 1, 1, 0, false, true, false, true⟩) rfl).2.2
    1 rfl

/-- Claim C10: model mutation stays under the build lock.  In every
reachable state, (a) a session whose thread is in the component
instantiation loop — where component constructors may mutate the model
and each instance is registered — is the lock holder, and the loop runs
entirely before the constructor returns; and (b) the only transition
that takes the lock away from a session is its own `lock.release()`
statement, which is reachable only after the simulation has been built
(`fails = false`, past the `Simulator` call) and every component's model
mutation has been undone. -/
theorem model_mutation_under_lock {s : Conc.Sys} (hs : Conc.Reach s)
    {i : Nat} {σ : Conc.Sess} (h : s.sess[i]? = some σ) :
    (∀ k, σ.phase = Conc.Phase.inst k →
       s.lockHolder = some i ∧ σ.registered = k ∧ σ.returned = false) ∧
    (∀ l s', Conc.Step s l s' → s.lockHolder = some i →
       ¬ s'.lockHolder = some i →
       σ.phase = Conc.Phase.release ∧ σ.undone = σ.n ∧ σ.registered = σ.n ∧
       σ.fails = false) := by
  have hv := Conc.reach_inv hs
  have h2 := hv.2 i σ h
  refine ⟨fun k hk => ?_, fun l s' hst hl hl2 => ?_⟩
  · have hsk := h2.2
    simp only [Conc.SessOk, hk] at hsk
    exact ⟨h2.1.1 (by rw [hk]; rfl), hsk.2.1, hsk.2.2.2.2.1⟩
  · cases hst with
    | create b => exact absurd hl hl2
    | configure => exact absurd hl hl2
    | tellFinish j σj hj => exact absurd hl hl2
    | actAcquire j σj hj hpj hlj =>
        rw [hl] at hlj
        cases hlj
    | actInst j σj hj k hpj hk => exact absurd hl hl2
    | actInstDone j σj hj k hpj hk => exact absurd hl hl2
    | actSpawn j σj hj hpj => exact absurd hl hl2
    | actBuildOk j σj hj hpj hf => exact absurd hl hl2
    | actBuildFail j σj hj hpj hf => exact absurd hl hl2
    | actStrip j σj hj k hpj hk => exact absurd hl hl2
    | actStripDone j σj hj k hpj hk => exact absurd hl hl2
    | actRelease j σj hj hpj =>
        have hlj := (hv.2 j σj hj).1.1 (by rw [hpj]; rfl)
        rw [hl] at hlj
        cases Option.some.inj hlj
        rw [h] at hj
        cases Option.some.inj hj
        have hsk := h2.2
        simp only [Conc.SessOk, hpj] at hsk
        exact ⟨hpj, hsk.2.1, hsk.1, hsk.2.2.2.2.2⟩
    | actSetRun j σj hj hpj => exact absurd hl hl2
    | actLoopRun j σj hj hpj hf => exact absurd hl hl2
    | actLoopExit j σj hj hpj hf => exact absurd hl hl2

/-- Witness for C10 at a concrete reachable state: the session inside
the component loop is the lock holder, with no component instantiated
yet and the constructor not yet returned. -/
theorem model_mutation_under_lock_witness :
    (⟨1, some 0, [⟨Conc.Phase.inst 0, 1, 0, 0, 0, false, false, false, true⟩]⟩ :
      Conc.Sys).lockHolder = some 0 ∧
    (⟨Conc.Phase.inst 0, 1, 0, 0, 0, false, false, false, true⟩ :
      Conc.Sess).registered = 0 ∧
    (⟨Conc.Phase.inst 0, 1, 0, 0, 0, false, false, false, true⟩ :
      Conc.Sess).returned = false :=
  (model_mutation_under_lock Conc.reach_locked
    (i := 0) (σ := ⟨Conc.Phase.inst 0, 1, 0, 0, 0, false, false, false, true⟩)
    rfl).1 0 rfl

namespace Conc

/-- Concrete execution: a first session's runner is at the `Simulator`
call (holding the lock) when a second `create_sim` call arrives; the
second session's constructor is parked at `lock.acquire()`. -/
theorem reach_built_pending :
    Reach ⟨1, some 0, [⟨Phase.build, 1, 1, 0, 0, false, true, false, true⟩,
      newSess 1 false]⟩ :=
  Reach.step reach_built
    (Step.create ⟨1, some 0, [⟨Phase.build, 1, 1, 0, 0, false, true, false, true⟩]⟩
      false)

end Conc

/-- Claim C4, counterexample: the claim says the calling path of
`create_sim` never blocks on the build lock.  In the reachable state
below, session 0's runner holds the lock (it is at the `Simulator`
call), a second `create_sim` has been issued, and the second session's
constructor — still on the calling path, `returned = false` — sits at
`self.viz.lock.acquire()` with no enabled transition: the second call
does wait for the first session's build. -/
theorem create_sim_calling_path_blocks_cex :
    Conc.Reach ⟨1, some 0, [⟨Conc.Phase.build, 1, 1, 0, 0, false, true, false, true⟩,
      Conc.newSess 1 false]⟩ ∧
    (Conc.newSess 1 false).returned = false ∧
    (Conc.newSess 1 false).phase = Conc.Phase.acquire ∧
    Conc.blocked ⟨1, some 0, [⟨Conc.Phase.build, 1, 1, 0, 0, false, true, false, true⟩,
      Conc.newSess 1 false]⟩ 1 := by
  refine ⟨Conc.reach_built_pending, rfl, rfl, ?_⟩
  exact Conc.blocked_of_acquire_locked (σ := Conc.newSess 1 false) rfl rfl (by decide)

/-- Claim C4, amended: `VizSim.__init__` acquires the build lock on the
*calling* path of `create_sim`, before instantiating any template entry,
and the constructor returns only after the whole component loop has run;
the background (runner) path never acquires the lock — when it starts,
at the build step, its session already holds it.  Consequently a
`create_sim` call made while another session holds the lock blocks until
that session releases it. -/
theorem lock_acquired_on_calling_path {s : Conc.Sys} (hs : Conc.Reach s)
    {i : Nat} {σ : Conc.Sess} (h : s.sess[i]? = some σ) :
    (σ.phase = Conc.Phase.acquire → σ.returned = false ∧ σ.registered = 0) ∧
    (∀ k, σ.phase = Conc.Phase.inst k →
       σ.returned = false ∧ s.lockHolder = some i) ∧
    (σ.phase = Conc.Phase.build →
       σ.returned = true ∧ s.lockHolder = some i ∧ σ.registered = σ.n) := by
  have hv := Conc.reach_inv hs
  have h2 := hv.2 i σ h
  refine ⟨fun hp => ?_, fun k hp => ?_, fun hp => ?_⟩
  · have hsk := h2.2
    simp only [Conc.SessOk, hp] at hsk
    exact ⟨hsk.2.2.2.1, hsk.1⟩
  · have hsk := h2.2
    simp only [Conc.SessOk, hp] at hsk
    exact ⟨hsk.2.2.2.2.1, h2.1.1 (by rw [hp]; rfl)⟩
  · have hsk := h2.2
    simp only [Conc.SessOk, hp] at hsk
    exact ⟨hsk.2.2.2.1, h2.1.1 (by rw [hp]; rfl), hsk.1⟩

/-- Witness for the amended C4 at a concrete reachable state: the
session whose runner is at the build step has already returned from its
constructor and is the lock holder. -/
theorem lock_acquired_on_calling_path_witness :
    (⟨Conc.Phase.build, 1, 1, 0, 0, false, true, false, true⟩ :
      Conc.Sess).returned = true ∧
    (⟨1, some 0, [⟨Conc.Phase.build, 1, 1, 0, 0, false, true, false, true⟩]⟩ :
      Conc.Sys).lockHolder = some 0 ∧
    (⟨Conc.Phase.build, 1, 1, 0, 0, false, true, false, true⟩ :
      Conc.Sess).registered = 1 :=
  (lock_acquired_on_calling_path Conc.reach_built
    (i := 0) (σ := ⟨Conc.Phase.build, 1, 1, 0, 0, false, true, false, true⟩)
    rfl).2.2 rfl

namespace Conc

/-- Concrete execution: a session whose `Simulator` factory raises.  The
runner thread dies at the build statement; afterwards a second
`create_sim` call arrives. -/
theorem reach_crashed_pending :
    Reach ⟨1, some 0, [⟨Phase.crashed, 1, 1, 0, 0, false, true, true, true⟩,
      newSess 1 false]⟩ := by
  have h1 : Reach ⟨1, none, [⟨Phase.acquire, 1, 0, 0, 0, false, false, true, true⟩]⟩ :=
    Reach.step Reach.init (Step.create init true)
  have h2 : Reach ⟨1, some 0, [⟨Phase.inst 0, 1, 0, 0, 0, false, false, true, true⟩]⟩ :=
    Reach.step h1
      (Step.actAcquire ⟨1, none, [⟨Phase.acquire, 1, 0, 0, 0, false, false, true, true⟩]⟩
        0 ⟨Phase.acquire, 1, 0, 0, 0, false, false, true, true⟩ rfl rfl rfl)
  have h3 : Reach ⟨1, some 0, [⟨Phase.inst 1, 1, 1, 0, 0, false, false, true, true⟩]⟩ :=
    Reach.step h2
      (Step.actInst ⟨1, some 0, [⟨Phase.inst 0, 1, 0, 0, 0, false, false, true, true⟩]⟩
        0 ⟨Phase.inst 0, 1, 0, 0, 0, false, false, true, true⟩ rfl 0 rfl (by decide))
  have h4 : Reach ⟨1, some 0, [⟨Phase.spawn, 1, 1, 0, 0, false, false, true, true⟩]⟩ :=
    Reach.step h3
      (Step.actInstDone ⟨1, some 0, [⟨Phase.inst 1, 1, 1, 0, 0, false, false, true, true⟩]⟩
        0 ⟨Phase.inst 1, 1, 1, 0, 0, false, false, true, true⟩ rfl 1 rfl rfl)
  have h5 : Reach ⟨1, some 0, [⟨Phase.build, 1, 1, 0, 0, false, true, true, true⟩]⟩ :=
    Reach.step h4
      (Step.actSpawn ⟨1, some 0, [⟨Phase.spawn, 1, 1, 0, 0, false, false, true, true⟩]⟩
        0 ⟨Phase.spawn, 1, 1, 0, 0, false, false, true, true⟩ rfl rfl)
  have h6 : Reach ⟨1, some 0, [⟨Phase.crashed, 1, 1, 0, 0, false, true, true, true⟩]⟩ :=
    Reach.step h5
      (Step.actBuildFail ⟨1, some 0, [⟨Phase.build, 1, 1, 0, 0, false, true, true, true⟩]⟩
        0 ⟨Phase.build, 1, 1, 0, 0, false, true, true, true⟩ rfl rfl rfl)
  exact Reach.step h6
    (Step.create ⟨1, some 0, [⟨Phase.crashed, 1, 1, 0, 0, false, true, true, true⟩]⟩
      false)

end Conc

/-- Claim C5: what `viz.py` actually does when the `Simulator` factory
raises during the build.  In the concrete reachable state below, session
0's runner thread has died at `self.sim = self.viz.Simulator(...)`
(there is no `try`/`finally` in `runner`): the session never leaves the
building state and executes no simulation step — that half of the claim
holds — but the build lock is **not** released: the organizer's lock
holder is still session 0, the dead thread can never move again, and a
later session is blocked forever at `lock.acquire()`.  This contradicts
the claim's (and the spec's) requirement that the lock be released on
the failure exit path. -/
theorem build_failure_keeps_lock :
    Conc.Reach ⟨1, some 0, [⟨Conc.Phase.crashed, 1, 1, 0, 0, false, true, true, true⟩,
      Conc.newSess 1 false]⟩ ∧
    (⟨1, some 0, [⟨Conc.Phase.crashed, 1, 1, 0, 0, false, true, true, true⟩,
      Conc.newSess 1 false]⟩ : Conc.Sys).lockHolder = some 0 ∧
    (⟨Conc.Phase.crashed, 1, 1, 0, 0, false, true, true, true⟩ :
      Conc.Sess).building = true ∧
    (⟨Conc.Phase.crashed, 1, 1, 0, 0, false, true, true, true⟩ :
      Conc.Sess).steps = 0 ∧
    Conc.blocked ⟨1, some 0, [⟨Conc.Phase.crashed, 1, 1, 0, 0, false, true, true, true⟩,
      Conc.newSess 1 false]⟩ 0 ∧
    Conc.blocked ⟨1, some 0, [⟨Conc.Phase.crashed, 1, 1, 0, 0, false, true, true, true⟩,
      Conc.newSess 1 false]⟩ 1 := by
  refine ⟨Conc.reach_crashed_pending, rfl, rfl, rfl, ?_, ?_⟩
  · exact Conc.blocked_of_crashed
      (σ := ⟨Conc.Phase.crashed, 1, 1, 0, 0, false, true, true, true⟩) rfl rfl
  · exact Conc.blocked_of_acquire_locked (σ := Conc.newSess 1 false) rfl rfl (by decide)

namespace Conc

/-- Concrete execution for the early-`finish()` scenario: `finish()` is
called right after `create_sim`, before the session's thread has done
anything; the session still completes the whole build-and-strip
procedure and exits the run loop having executed zero quanta. -/
theorem reach_finished_done :
    Reach ⟨1, none, [⟨Phase.done, 1, 1, 1, 0, true, true, false, false⟩]⟩ := by
  have h1 : Reach ⟨1, none, [⟨Phase.acquire, 1, 0, 0, 0, false, false, false, true⟩]⟩ :=
    Reach.step Reach.init (Step.create init false)
  have h2 : Reach ⟨1, none, [⟨Phase.acquire, 1, 0, 0, 0, true, false, false, true⟩]⟩ :=
    Reach.step h1
      (Step.tellFinish ⟨1, none, [⟨Phase.acquire, 1, 0, 0, 0, false, false, false, true⟩]⟩
        0 ⟨Phase.acquire, 1, 0, 0, 0, false, false, false, true⟩ rfl)
  have h3 : Reach ⟨1, some 0, [⟨Phase.inst 0, 1, 0, 0, 0, true, false, false, true⟩]⟩ :=
    Reach.step h2
      (Step.actAcquire ⟨1, none, [⟨Phase.acquire, 1, 0, 0, 0, true, false, false, true⟩]⟩
        0 ⟨Phase.acquire, 1, 0, 0, 0, true, false, false, true⟩ rfl rfl rfl)
  have h4 : Reach ⟨1, some 0, [⟨Phase.inst 1, 1, 1, 0, 0, true, false, false, true⟩]⟩ :=
    Reach.step h3
      (Step.actInst ⟨1, some 0, [⟨Phase.inst 0, 1, 0, 0, 0, true, false, false, true⟩]⟩
        0 ⟨Phase.inst 0, 1, 0, 0, 0, true, false, false, true⟩ rfl 0 rfl (by decide))
  have h5 : Reach ⟨1, some 0, [⟨Phase.spawn, 1, 1, 0, 0, true, false, false, true⟩]⟩ :=
    Reach.step h4
      (Step.actInstDone ⟨1, some 0, [⟨Phase.inst 1, 1, 1, 0, 0, true, false, false, true⟩]⟩
        0 ⟨Phase.inst 1, 1, 1, 0, 0, true, false, false, true⟩ rfl 1 rfl rfl)
  have h6 : Reach ⟨1, some 0, [⟨Phase.build, 1, 1, 0, 0, true, true, false, true⟩]⟩ :=
    Reach.step h5
      (Step.actSpawn ⟨1, some 0, [⟨Phase.spawn, 1, 1, 0, 0, true, false, false, true⟩]⟩
        0 ⟨Phase.spawn, 1, 1, 0, 0, true, false, false, true⟩ rfl rfl)
  have h7 : Reach ⟨1, some 0, [⟨Phase.strip 0, 1, 1, 0, 0, true, true, false, true⟩]⟩ :=
    Reach.step h6
      (Step.actBuildOk ⟨1, some 0, [⟨Phase.build, 1, 1, 0, 0, true, true, false, true⟩]⟩
        0 ⟨Phase.build, 1, 1, 0, 0, true, true, false, true⟩ rfl rfl rfl)
  have h8 : Reach ⟨1, some 0, [⟨Phase.strip 1, 1, 1, 1, 0, true, true, false, true⟩]⟩ :=
    Reach.step h7
      (Step.actStrip ⟨1, some 0, [⟨Phase.strip 0, 1, 1, 0, 0, true, true, false, true⟩]⟩
        0 ⟨Phase.strip 0, 1, 1, 0, 0, true, true, false, true⟩ rfl 0 rfl (by decide))
  have h9 : Reach ⟨1, some 0, [⟨Phase.release, 1, 1, 1, 0, true, true, false, true⟩]⟩ :=
    Reach.step h8
      (Step.actStripDone ⟨1, some 0, [⟨Phase.strip 1, 1, 1, 1, 0, true, true, false, true⟩]⟩
        0 ⟨Phase.strip 1, 1, 1, 1, 0, true, true, false, true⟩ rfl 1 rfl rfl)
  have h10 : Reach ⟨1, none, [⟨Phase.setRun, 1, 1, 1, 0, true, true, false, true⟩]⟩ :=
    Reach.step h9
      (Step.actRelease ⟨1, some 0, [⟨Phase.release, 1, 1, 1, 0, true, true, false, true⟩]⟩
        0 ⟨Phase.release, 1, 1, 1, 0, true, true, false, true⟩ rfl rfl)
  have h11 : Reach ⟨1, none, [⟨Phase.loopCheck, 1, 1, 1, 0, true, true, false, false⟩]⟩ :=
    Reach.step h10
      (Step.actSetRun ⟨1, none, [⟨Phase.setRun, 1, 1, 1, 0, true, true, false, true⟩]⟩
        0 ⟨Phase.setRun, 1, 1, 1, 0, true, true, false, true⟩ rfl rfl)
  exact Reach.step h11
    (Step.actLoopExit ⟨1, none, [⟨Phase.loopCheck, 1, 1, 1, 0, true, true, false, false⟩]⟩
      0 ⟨Phase.loopCheck, 1, 1, 1, 0, true, true, false, false⟩ rfl rfl rfl)

end Conc

/-- Claim C7: cooperative stop.  (a) In any state, if a session sits at
the `while not self.finished` test with the flag set, the only
transition its thread can take exits the run loop — phase `done` — with
the step counter unchanged: the flag is checked before each quantum, so
`finish()` takes effect within one quantum.  (b) Concretely, a session
whose `finish()` arrives before its thread does anything still runs the
whole background procedure — build, strip of its one component — and
exits the run loop with zero quanta executed (the `Reach` target records
`undone = 1 = n`, `steps = 0`, phase `done`). -/
theorem finish_cooperative_stop :
    (∀ (s s' : Conc.Sys) (i : Nat) (σ : Conc.Sess),
       s.sess[i]? = some σ → σ.phase = Conc.Phase.loopCheck → σ.finished = true →
       Conc.Step s (Conc.Label.act i) s' →
       s'.sess[i]? = some { σ with phase := Conc.Phase.done }) ∧
    Conc.Reach ⟨1, none, [⟨Conc.Phase.done, 1, 1, 1, 0, true, true, false, false⟩]⟩ := by
  refine ⟨fun s s' i σ h hp hf hst => ?_, Conc.reach_finished_done⟩
  have hi : i < s.sess.length := (List.getElem?_eq_some.1 h).1
  cases hst with
  | actAcquire j σj hj hpj hlj =>
      rw [h] at hj
      cases Option.some.inj hj
      rw [hp] at hpj
      cases hpj
  | actInst j σj hj k hpj hk =>
      rw [h] at hj
      cases Option.some.inj hj
      rw [hp] at hpj
      cases hpj
  | actInstDone j σj hj k hpj hk =>
      rw [h] at hj
      cases Option.some.inj hj
      rw [hp] at hpj
      cases hpj
  | actSpawn j σj hj hpj =>
      rw [h] at hj
      cases Option.some.inj hj
      rw [hp] at hpj
      cases hpj
  | actBuildOk j σj hj hpj hfj =>
      rw [h] at hj
      cases Option.some.inj hj
      rw [hp] at hpj
      cases hpj
  | actBuildFail j σj hj hpj hfj =>
      rw [h] at hj
      cases Option.some.inj hj
      rw [hp] at hpj
      cases hpj
  | actStrip j σj hj k hpj hk =>
      rw [h] at hj
      cases Option.some.inj hj
      rw [hp] at hpj
      cases hpj
  | actStripDone j σj hj k hpj hk =>
      rw [h] at hj
      cases Option.some.inj hj
      rw [hp] at hpj
      cases hpj
  | actRelease j σj hj hpj =>
      rw [h] at hj
      cases Option.some.inj hj
      rw [hp] at hpj
      cases hpj
  | actSetRun j σj hj hpj =>
      rw [h] at hj
      cases Option.some.inj hj
      rw [hp] at hpj
      cases hpj
  | actLoopRun j σj hj hpj hfj =>
      rw [h] at hj
      cases Option.some.inj hj
      rw [hf] at hfj
      cases hfj
  | actLoopExit j σj hj hpj hfj =>
      rw [h] at hj
      cases Option.some.inj hj
      rw [List.getElem?_set_eq_of_lt _ hi]

/-- Witness for C7: applying the one-quantum-exit part at a concrete
state — a finished session at the loop test moves to `done` with zero
steps executed. -/
theorem finish_cooperative_stop_witness :
    (⟨1, none, [⟨Conc.Phase.done, 1, 1, 1, 0, true, true, false, false⟩]⟩ :
      Conc.Sys).sess[0]? =
      some ⟨Conc.Phase.done, 1, 1, 1, 0, true, true, false, false⟩ := by
  have h := finish_cooperative_stop.1
    ⟨1, none, [⟨Conc.Phase.loopCheck, 1, 1, 1, 0, true, true, false, false⟩]⟩
    ⟨1, none, [⟨Conc.Phase.done, 1, 1, 1, 0, true, true, false, false⟩]⟩
    0 ⟨Conc.Phase.loopCheck, 1, 1, 1, 0, true, true, false, false⟩ rfl rfl rfl
    (Conc.Step.actLoopExit
      ⟨1, none, [⟨Conc.Phase.loopCheck, 1, 1, 1, 0, true, true, false, false⟩]⟩
      0 ⟨Conc.Phase.loopCheck, 1, 1, 1, 0, true, true, false, false⟩ rfl rfl rfl)
  exact h
